import Mathlib

/-!
Verification of `objeto_imis_client.py` (a Python client for the IMIS CRM web
API) against its natural-language specification.

The embedding is shallow: JSON values (as produced by Python's `json` module)
are modelled by the inductive `JVal`, Python exceptions by `PyExc`, and every
fallible Python operation by a computable function into `Except PyExc`.
Numbers are modelled as `Int` (the repository only ever handles integral
counts).  The HTTP transport is abstracted by a "server" function giving the
body of the response to the i-th request at a given URL; `none` models
`make_request` returning `None` (transport failure or non-2xx status), and
`Body.invalid` models a body on which `response.json()` raises
`JSONDecodeError`.
-/

/-- JSON values as decoded by Python's `json` module (`None`, `bool`, `int`,
`str`, `list`, `dict`).  Floats are not modelled; the client only handles
integral counts. -/
inductive JVal where
  | null : JVal
  | bool (b : Bool) : JVal
  | num (n : Int) : JVal
  | str (s : String) : JVal
  | arr (xs : List JVal) : JVal
  | obj (fields : List (String × JVal)) : JVal

/-- Python exceptions that the client's code paths can raise. -/
inductive PyExc where
  | valueError (msg : String)
  | exn (msg : String)
  | attributeError
  | typeError
  | keyError (k : String)
  | jsonDecodeError
deriving DecidableEq

/-- Dictionary lookup on a decoded JSON object.  `json.loads` keeps the last
occurrence of a duplicated key, hence the last-wins fold. -/
def jlookup (fields : List (String × JVal)) (k : String) : Option JVal :=
  fields.foldl (fun acc p => if p.1 = k then some p.2 else acc) none

mutual
/-- Python `repr`, restricted to the values of `JVal` (string escaping is not
modelled: the client never formats strings containing quotes). -/
def pyRepr : JVal → String
  | .null => "None"
  | .bool true => "True"
  | .bool false => "False"
  | .num n => toString n
  | .str s => "\x27" ++ s ++ "\x27"
  | .arr xs => "[" ++ pyReprList xs ++ "]"
  | .obj fs => "\x7b" ++ pyReprFields fs ++ "\x7d"
/-- Comma-separated `repr` of the elements of a Python list. -/
def pyReprList : List JVal → String
  | [] => ""
  | [x] => pyRepr x
  | x :: y :: xs => pyRepr x ++ ", " ++ pyReprList (y :: xs)
/-- Comma-separated `repr` of the entries of a Python dict. -/
def pyReprFields : List (String × JVal) → String
  | [] => ""
  | [(k, v)] => "\x27" ++ k ++ "\x27: " ++ pyRepr v
  | (k, v) :: f :: fs => "\x27" ++ k ++ "\x27: " ++ pyRepr v ++ ", " ++ pyReprFields (f :: fs)
end

/-- Python `str()` on a `JVal`: same as `repr` except on strings. -/
def pyStr : JVal → String
  | .str s => s
  | v => pyRepr v

/-- Python truthiness (`bool(v)`) of a decoded JSON value. -/
def truthy : JVal → Bool
  | .null => false
  | .bool b => b
  | .num n => n != 0
  | .str s => s != ""
  | .arr xs => !xs.isEmpty
  | .obj fs => !fs.isEmpty

/-- Python `v[k]` with a string key: `KeyError` on a dict without the key,
`TypeError` on any non-dict. -/
def subscript (v : JVal) (k : String) : Except PyExc JVal :=
  match v with
  | .obj fs =>
    match jlookup fs k with
    | some x => .ok x
    | none => .error (.keyError k)
  | _ => .error .typeError

/-- Python `v.get(k, d)`: only dicts have `.get`; any other value raises
`AttributeError`. -/
def pyGetD (v : JVal) (k : String) (d : JVal) : Except PyExc JVal :=
  match v with
  | .obj fs => .ok ((jlookup fs k).getD d)
  | _ => .error .attributeError

/-- Python iteration over a decoded JSON value: lists yield their elements,
strings their one-character substrings, dicts their keys; other values raise
`TypeError`. -/
def pyIter : JVal → Except PyExc (List JVal)
  | .arr xs => .ok xs
  | .str s => .ok (s.toList.map (fun ch => .str (String.mk [ch])))
  | .obj fs => .ok (fs.map (fun f => .str f.1))
  | _ => .error .typeError

/-- Python dict keys: only hashable values can key `rec[...]`; a list or dict
key raises `TypeError`.  Python's `==`-based key identity equates `True` with
`1` and `False` with `0`, hence booleans normalise to numbers. -/
inductive PyKey where
  | null : PyKey
  | num (n : Int) : PyKey
  | str (s : String) : PyKey
deriving DecidableEq

/-- Convert a `JVal` into a dict key, raising `TypeError` on unhashable
values, as Python does for `rec[value["Name"]] = ...`. -/
def toKey : JVal → Except PyExc PyKey
  | .null => .ok .null
  | .bool b => .ok (.num (if b then 1 else 0))
  | .num n => .ok (.num n)
  | .str s => .ok (.str s)
  | _ => .error .typeError

/-- A flattened record: a Python dict from field key to value, in insertion
order. -/
abbrev Rec := List (PyKey × JVal)

/-- Python dict assignment `d[k] = v`: an existing key keeps its position and
is updated in place, a new key is appended. -/
def dictInsert (d : Rec) (k : PyKey) (v : JVal) : Rec :=
  if d.any (fun p => p.1 = k) then
    d.map (fun p => if p.1 = k then (k, v) else p)
  else d ++ [(k, v)]

/-- The value stored for one `{Name, Value}` pair (lines 117-120 of the
source): a dict `Value` contributes its `$value` member, defaulting to the
whole dict; anything else is stored as-is. -/
def extractValue (v : JVal) : JVal :=
  match v with
  | .obj fs => (jlookup fs "$value").getD (.obj fs)
  | v => v

/-- The `for value in value_pairs` loop of `flatten_record`, threading the
`rec` accumulator.  Evaluation order per pair follows Python: the
`value.get("Value")` of the `isinstance` test first (AttributeError on a
non-dict pair), then `value["Name"]` (KeyError), then key hashing
(TypeError). -/
def flattenPairs : List JVal → Rec → Except PyExc Rec
  | [], r => .ok r
  | value :: rest, r => do
    let v ← pyGetD value "Value" .null
    let name ← subscript value "Name"
    let key ← toKey name
    flattenPairs rest (dictInsert r key (extractValue v))

/-- `flatten_record(row)` from `simplify_data` (lines 112-121). -/
def flatten_record (row : JVal) : Except PyExc Rec := do
  let props ← subscript row "Properties"
  let vals ← subscript props "$values"
  let value_pairs ← pyIter vals
  flattenPairs value_pairs []

/-- `IMISClient.simplify_data` (lines 111-125):
`[flatten_record(item) for item in data.get("Items", {}).get("$values", [])]`. -/
def simplify_data (data : JVal) : Except PyExc (List Rec) := do
  let itemsObj ← pyGetD data "Items" (.obj [])
  let vals ← pyGetD itemsObj "$values" (.arr [])
  let rows ← pyIter vals
  rows.mapM flatten_record

/-- The body of one HTTP response: either raw bytes on which `.json()` raises
`JSONDecodeError`, or a decoded JSON value. -/
inductive Body where
  | invalid : Body
  | json (data : JVal) : Body

/-- The decoded page produced by `process_response`: flattened records,
the raw `HasNext` value and the raw `TotalCount` value (both arbitrary
`JVal`s, defaulted when the keys are absent). -/
structure ProcResult where
  items : List Rec
  has_next : JVal
  count : JVal

/-- The dict literal built inside the `try` of `process_response`
(lines 102-106), evaluated in Python order: `simplify_data` first, then the
two `data.get` defaults. -/
def decodePage (data : JVal) : Except PyExc ProcResult := do
  let its ← simplify_data data
  let hn ← pyGetD data "HasNext" (.bool false)
  let cnt ← pyGetD data "TotalCount" (.num 0)
  pure ⟨its, hn, cnt⟩

/-- `IMISClient.process_response` (lines 99-109): `JSONDecodeError` and
`KeyError` are caught (logged, `None` returned); every other exception
propagates to the caller. -/
def process_response : Body → Except PyExc (Option ProcResult)
  | .invalid => .ok none
  | .json data =>
    match decodePage data with
    | .ok r => .ok (some r)
    | .error (.keyError _) => .ok none
    | .error .jsonDecodeError => .ok none
    | .error e => .error e

/-- The client object: `self.base_url` and `self.token`, the only instance
state set by `IMISClient.__init__` (lines 23-24). -/
structure IMISClient where
  base_url : String
  token : String

/-- The configuration bundle `IMISClientConfig` (lines 7-11).  A field is
`none` when the attribute holds Python `None`. -/
structure IMISClientConfig where
  BASE_URL : Option String
  USERNAME : Option String
  PWD : Option String

/-- Python falsiness of a string-or-None configuration attribute
(`not config.X`). -/
def pyFalsy : Option String → Bool
  | none => true
  | some s => s = ""

/-- `IMISClient.request_token` (lines 34-39) on a mocked token-endpoint
response.  `none` models `make_request` returning `None` (so `response.json()`
raises `AttributeError` on `None`); `Body.invalid` models a body on which
`.json()` raises `JSONDecodeError`; otherwise the result is the f-string
`f"Bearer {response.json().get('access_token')}"`, i.e. `"Bearer "` followed
by `str()` of the `access_token` member (the string `"None"` when absent). -/
def request_token (resp : Option Body) : Except PyExc String :=
  match resp with
  | none => .error .attributeError
  | some .invalid => .error .jsonDecodeError
  | some (.json data) => do
    let tok ← pyGetD data "access_token" .null
    pure ("Bearer " ++ pyStr tok)

/-- `IMISClient.authenticate` (lines 26-32). -/
def authenticate (username password : String) (resp : Option Body) : Except PyExc String :=
  if username = "" || password = "" then
    .error (.valueError "Username and password are required for authentication.")
  else do
    let token ← request_token resp
    if token = "" then .error (.exn "Failed to authenticate with the API")
    else pure token

/-- `IMISClient.__init__` (lines 14-24): validate the three configuration
attributes in order, then authenticate; `tokenResp` is the mocked response of
the single network call `POST {base_url}/token`. -/
def clientInit (config : IMISClientConfig) (tokenResp : Option Body) : Except PyExc IMISClient :=
  if pyFalsy config.BASE_URL then
    .error (.valueError "Base URL is required in the configuration (e.g. https://demo123.imiscloud.com)")
  else if pyFalsy config.USERNAME then
    .error (.valueError "Username is required in the configuration.")
  else if pyFalsy config.PWD then
    .error (.valueError "Password is required in the configuration.")
  else do
    let token ← authenticate (config.USERNAME.getD "") (config.PWD.getD "") tokenResp
    pure ⟨config.BASE_URL.getD "", token⟩

/-- `IMISClient.construct_path_request` (lines 93-97). -/
def construct_path_request (base_url path : String) (page_size : Int) (offset : Nat)
    (last_updated : Option String) : String :=
  let path_request := base_url ++ path ++ "&limit=" ++ toString page_size ++
    "&offset=" ++ toString offset
  match last_updated with
  | some lu => if lu ≠ "" then path_request ++ "&parameter=" ++ lu else path_request
  | none => path_request

/-- The local state of one `fetch_iqa` invocation: the `items` accumulator,
the raw `has_next` value, the `offset` counter, plus the observable trace
(messages passed to `log_info`, and the number of HTTP calls issued). -/
structure LoopState where
  items : List Rec
  has_next : JVal
  offset : Nat
  logs : List String
  calls : Nat

/-- The `offset < limit` half of the loop guard (`limit is None or
offset < limit`). -/
def limitOk (limit : Option Int) (offset : Nat) : Bool :=
  match limit with
  | none => true
  | some l => decide ((offset : Int) < l)

/-- The loop guard of `fetch_iqa` (line 76):
`while has_next and (limit is None or offset < limit)`.  `has_next` is tested
for Python truthiness since it is replaced by whatever JSON value the page's
`HasNext` key held. -/
def loopCond (hn : JVal) (offset : Nat) (limit : Option Int) : Bool :=
  truthy hn && limitOk limit offset

/-- The progress message passed to `log_info` (line 85):
`f"Retrieving: {offset} of {result['count']}"`. -/
def logMsg (offset : Nat) (count : JVal) : String :=
  "Retrieving: " ++ toString offset ++ " of " ++ pyStr count

/-- The state update of one successfully decoded page (lines 82-85): extend
`items`, replace `has_next`, advance `offset` by the number of records just
appended, log the progress message, and count the HTTP call. -/
def stepState (st : LoopState) (r : ProcResult) : LoopState :=
  { items := st.items ++ r.items
    has_next := r.has_next
    offset := st.offset + r.items.length
    logs := st.logs ++ [logMsg (st.offset + r.items.length) r.count]
    calls := st.calls + 1 }

/-- A server: the body of the response to the i-th HTTP call at the given
URL, `none` when `make_request` returns `None` (transport failure or non-2xx
status).  The bearer-token Authorization header is part of every request and
is not modelled. -/
abbrev Server := Nat → String → Option Body

/-- The `while` loop of `fetch_iqa` (lines 76-89), with an explicit fuel
bound on the number of iterations: `.ok none` means the loop is still
running after `fuel` iterations (the Python loop need not terminate),
`.ok (some st)` that it exited normally with final state `st`, and
`.error e` that a Python exception escaped `fetch_iqa`. -/
def fetchAux (c : IMISClient) (server : Server) (path : String) (page_size : Int)
    (last_updated : Option String) (limit : Option Int) :
    Nat → LoopState → Except PyExc (Option LoopState)
  | 0, st =>
    if loopCond st.has_next st.offset limit then .ok none else .ok (some st)
  | fuel + 1, st =>
    if loopCond st.has_next st.offset limit then
      match server st.calls
          (construct_path_request c.base_url path page_size st.offset last_updated) with
      | none => .ok (some { st with calls := st.calls + 1 })
      | some b =>
        match process_response b with
        | .error e => .error e
        | .ok none => .ok (some { st with calls := st.calls + 1 })
        | .ok (some r) =>
          fetchAux c server path page_size last_updated limit fuel (stepState st r)
    else .ok (some st)

/-- The initial loop state of `fetch_iqa` (lines 69-71): empty accumulator,
`has_next = True`, `offset = 0`. -/
def initState : LoopState := ⟨[], .bool true, 0, [], 0⟩

/-- `IMISClient.fetch_iqa` (lines 50-91) run to its full final state: the
query path is embedded into the fixed endpoint template (line 74) and the
loop starts from `initState`. -/
def fetch_run (c : IMISClient) (server : Server) (iqa_path : String) (limit : Option Int)
    (page_size : Int) (last_updated : Option String) (fuel : Nat) :
    Except PyExc (Option LoopState) :=
  fetchAux c server ("/api/IQA?QueryName=" ++ iqa_path) page_size last_updated limit
    fuel initState

/-- `IMISClient.fetch_iqa` as observed by its caller: the returned list of
flattened records, paired with the client object after the call (the method
reads but never writes `self`). -/
def fetch_iqa (c : IMISClient) (server : Server) (iqa_path : String) (limit : Option Int)
    (page_size : Int) (last_updated : Option String) (fuel : Nat) :
    Except PyExc (Option (List Rec)) × IMISClient :=
  ((fetch_run c server iqa_path limit page_size last_updated fuel).map
    (Option.map LoopState.items), c)

/-- A server replaying a fixed finite script of responses, one per call; past
the end of the script every call fails at the transport level. -/
def scriptServer (script : List (Option Body)) : Server :=
  fun i _ => (script.get? i).getD none

/-- Spec-side constructor of one `{Name, Value}` pair object. -/
def mkPairObj (p : String × JVal) : JVal :=
  .obj [("Name", .str p.1), ("Value", p.2)]

/-- Spec-side constructor of a row whose `Properties.$values` is the given
list of `{Name, Value}` pairs. -/
def mkRow (pairs : List (String × JVal)) : JVal :=
  .obj [("Properties", .obj [("$values", .arr (pairs.map mkPairObj))])]

/-- Spec-side constructor of a page body with the vendor's top-level shape. -/
def pageBody (rows : List JVal) (hasNext : Bool) (total : Int) : Body :=
  .json (.obj [("Items", .obj [("$values", .arr rows)]),
               ("HasNext", .bool hasNext), ("TotalCount", .num total)])

/-- Modelled from the spec (§4.5/§8): the value a `{Name, Value}` pair
contributes to the flattened record — "if `Value` is itself a structured
object, extract its `$value` member (fallback to the whole structured object
if `$value` is absent); otherwise use `Value` as-is (scalar or null)". -/
def specValue (v : JVal) : JVal :=
  match v with
  | .obj fs => (jlookup fs "$value").getD (.obj fs)
  | v => v

/-- Modelled from the spec (§4.5): "build a field-name→value mapping from all
pairs in the row". -/
def specFlatten (pairs : List (String × JVal)) : Rec :=
  pairs.foldl (fun r p => dictInsert r (.str p.1) (specValue p.2)) []

/-- Every page this server successfully serves either reports no further data
or contains at least one record. -/
def goodPages (server : Server) : Prop :=
  ∀ i url b r, server i url = some b → process_response b = .ok (some r) →
    truthy r.has_next = false ∨ r.items ≠ []

/-- Every page this server successfully serves contributes at most `ps`
records. -/
def pagesBounded (server : Server) (ps : Int) : Prop :=
  ∀ i url b r, server i url = some b → process_response b = .ok (some r) →
    (r.items.length : Int) ≤ ps

/-- A decodable page with zero records that still claims `HasNext = true`. -/
def emptyPageBody : Body := pageBody [] true 0

/-- A server that answers every request with `emptyPageBody`. -/
def emptyPageServer : Server := fun _ _ => some emptyPageBody

/-- Total record count of the decoded prefix pages of a script, used to state
which offsets the loop passes through. -/
def sumLens (gs : List (Body × ProcResult)) : Nat :=
  (gs.map (fun p => p.2.items.length)).sum

/-- If the loop guard fails, the loop body never runs: no HTTP call is made
and the state is returned unchanged, whatever the remaining fuel. -/
theorem fetchAux_cond_false (c : IMISClient) (server : Server) (path : String)
    (ps : Int) (lu : Option String) (limit : Option Int) (fuel : Nat) (st : LoopState)
    (h : loopCond st.has_next st.offset limit = false) :
    fetchAux c server path ps lu limit fuel st = .ok (some st) := by
  cases fuel <;> simp [fetchAux, h]

/-- One successfully decoded page: the loop recurses on the stepped state. -/
theorem fetchAux_step (c : IMISClient) (server : Server) (path : String)
    (ps : Int) (lu : Option String) (limit : Option Int) (fuel : Nat) (st : LoopState)
    (b : Body) (r : ProcResult)
    (hcond : loopCond st.has_next st.offset limit = true)
    (hs : server st.calls (construct_path_request c.base_url path ps st.offset lu) = some b)
    (hp : process_response b = .ok (some r)) :
    fetchAux c server path ps lu limit (fuel + 1) st
      = fetchAux c server path ps lu limit fuel (stepState st r) := by
  simp [fetchAux, hcond, hs, hp]

/-- A transport-level failure (`make_request` returning `None`) breaks the
loop: the accumulated state is returned as-is. -/
theorem fetchAux_httpFail (c : IMISClient) (server : Server) (path : String)
    (ps : Int) (lu : Option String) (limit : Option Int) (fuel : Nat) (st : LoopState)
    (hcond : loopCond st.has_next st.offset limit = true)
    (hs : server st.calls (construct_path_request c.base_url path ps st.offset lu) = none) :
    fetchAux c server path ps lu limit (fuel + 1) st
      = .ok (some { st with calls := st.calls + 1 }) := by
  simp [fetchAux, hcond, hs]

/-- A caught decode failure (`process_response` returning `None`) breaks the
loop: the accumulated state is returned as-is. -/
theorem fetchAux_decodeFail (c : IMISClient) (server : Server) (path : String)
    (ps : Int) (lu : Option String) (limit : Option Int) (fuel : Nat) (st : LoopState)
    (b : Body)
    (hcond : loopCond st.has_next st.offset limit = true)
    (hs : server st.calls (construct_path_request c.base_url path ps st.offset lu) = some b)
    (hp : process_response b = .ok none) :
    fetchAux c server path ps lu limit (fuel + 1) st
      = .ok (some { st with calls := st.calls + 1 }) := by
  simp [fetchAux, hcond, hs, hp]

/-- An uncaught exception in `process_response` propagates out of the loop. -/
theorem fetchAux_exc (c : IMISClient) (server : Server) (path : String)
    (ps : Int) (lu : Option String) (limit : Option Int) (fuel : Nat) (st : LoopState)
    (b : Body) (e : PyExc)
    (hcond : loopCond st.has_next st.offset limit = true)
    (hs : server st.calls (construct_path_request c.base_url path ps st.offset lu) = some b)
    (hp : process_response b = .error e) :
    fetchAux c server path ps lu limit (fuel + 1) st = .error e := by
  simp [fetchAux, hcond, hs, hp]

/-- Claim C1 (refuted; the spec states the code's evident intent): on a
transport-level failure of the token call, construction raises
`AttributeError` (from `None.json()`), not the authentication error; and on a
token response whose JSON body has no `access_token`, construction succeeds
with the degenerate token `"Bearer None"` instead of failing, because
`request_token` wraps the absent token in the f-string before the
`if not token` guard can see it. -/
theorem C1_auth_divergence :
    clientInit ⟨some "https://x", some "u", some "p"⟩ none = .error .attributeError ∧
    clientInit ⟨some "https://x", some "u", some "p"⟩ (some (.json (.obj [])))
      = .ok ⟨"https://x", "Bearer None"⟩ ∧
    authenticate "u" "p" (some (.json (.obj [("other", .num 1)])))
      = .ok "Bearer None" := by
  exact ⟨rfl, rfl, rfl⟩

/-- Claim C4: for a single page with `HasNext=false`, the loop performs
exactly one HTTP call and returns exactly that page's flattened records; for
two pages (2 records with `HasNext=true`, then 1 record with
`HasNext=false`), it returns the 3 records in arrival order and logs
`"Retrieving: 2 of 3"` then `"Retrieving: 3 of 3"`. -/
theorem C4_concrete_pagination :
    fetch_run ⟨"https://x", "Bearer t"⟩
      (scriptServer [some (pageBody [mkRow [("A", .str "x")]] false 1),
                     some (pageBody [mkRow [("E", .str "v")]] true 9),
                     some (pageBody [mkRow [("F", .str "w")]] true 9)])
      "$/Samples/Q" none 200 none 10
      = .ok (some ⟨[[(.str "A", .str "x")]], .bool false, 1, ["Retrieving: 1 of 1"], 1⟩) ∧
    fetch_run ⟨"https://x", "Bearer t"⟩
      (scriptServer [some (pageBody [mkRow [("A", .str "x")], mkRow [("B", .str "y")]] true 3),
                     some (pageBody [mkRow [("C", .str "z")]] false 3),
                     some (pageBody [mkRow [("D", .str "w")]] true 9)])
      "$/Samples/Q" none 200 none 10
      = .ok (some ⟨[[(.str "A", .str "x")], [(.str "B", .str "y")], [(.str "C", .str "z")]],
                   .bool false, 3, ["Retrieving: 2 of 3", "Retrieving: 3 of 3"], 2⟩) := by
  exact ⟨rfl, rfl⟩

/-- Claim C9: `fetch_iqa` mutates no client state, so with the same arguments
and the same response sequence a repeated invocation returns the identical
record list. -/
theorem C9_deterministic (c : IMISClient) (server : Server) (iqa_path : String)
    (limit : Option Int) (ps : Int) (lu : Option String) (fuel : Nat) :
    (fetch_iqa c server iqa_path limit ps lu fuel).2 = c ∧
    (fetch_iqa ((fetch_iqa c server iqa_path limit ps lu fuel).2)
        server iqa_path limit ps lu fuel).1
      = (fetch_iqa c server iqa_path limit ps lu fuel).1 := by
  exact ⟨rfl, rfl⟩

/-- Counterexample to claim C2 as stated: a page body that is valid JSON but
not an object (here `[]`) cannot be decoded into a page, yet the resulting
`AttributeError` (from `data.get("Items", {})` on a list) is not among the
exceptions `process_response` catches, so an exception does escape
`fetch_iqa` instead of the accumulated records being returned. -/
theorem C2_cex_exception_escapes :
    (fetch_iqa ⟨"https://x", "Bearer t"⟩ (scriptServer [some (.json (.arr []))])
      "$/Samples/Q" none 200 none 5).1 = .error .attributeError := by
  exact rfl

/-- The per-pair extraction of the code coincides with the spec's wording. -/
theorem extract_eq_spec (v : JVal) : extractValue v = specValue v := by
  cases v <;> rfl

/-- Flattening a list of well-formed `{Name, Value}` pair objects threads the
accumulator exactly as the spec's field-name→value construction does. -/
theorem flattenPairs_mkPairs (pairs : List (String × JVal)) :
    ∀ r : Rec, flattenPairs (pairs.map mkPairObj) r
      = .ok (pairs.foldl (fun r p => dictInsert r (.str p.1) (specValue p.2)) r) := by
  induction pairs with
  | nil => intro r; rfl
  | cons p rest ih =>
    intro r
    have h1 : flattenPairs ((p :: rest).map mkPairObj) r
        = flattenPairs (rest.map mkPairObj) (dictInsert r (.str p.1) (extractValue p.2)) := rfl
    rw [h1, extract_eq_spec]
    exact ih _

/-- Claim C5: a row whose `Properties.$values` is a list of `{Name, Value}`
pairs flattens to the field-name→value mapping in which a dict `Value`
contributes its `$value` member (the whole dict when `$value` is absent) and
any other `Value` is taken as-is; in particular
`[{Name:"A",Value:"x"}, {Name:"B",Value:{"$value":5}}]` flattens to
`{"A":"x","B":5}`. -/
theorem C5_flattening :
    (∀ pairs : List (String × JVal),
      flatten_record (mkRow pairs) = .ok (specFlatten pairs)) ∧
    flatten_record (mkRow [("A", .str "x"), ("B", .obj [("$value", .num 5)])])
      = .ok [(.str "A", .str "x"), (.str "B", .num 5)] := by
  constructor
  · intro pairs
    have h1 : flatten_record (mkRow pairs) = flattenPairs (pairs.map mkPairObj) [] := rfl
    rw [h1, flattenPairs_mkPairs]
    rfl
  · rfl

/-- Claim C7: whenever any of the three configuration attributes is empty or
absent, construction fails with the validation `ValueError` whose message
starts with the name of a missing field, and the failure is independent of
the token endpoint's response (no network call is needed to produce it). -/
theorem C7_config_validation (config : IMISClientConfig)
    (h : pyFalsy config.BASE_URL = true ∨ pyFalsy config.USERNAME = true ∨
         pyFalsy config.PWD = true) :
    ∃ msg : String,
      (∀ tokenResp, clientInit config tokenResp = .error (.valueError msg)) ∧
      ((pyFalsy config.BASE_URL = true ∧ ∃ rest, msg = "Base URL" ++ rest) ∨
       (pyFalsy config.USERNAME = true ∧ ∃ rest, msg = "Username" ++ rest) ∨
       (pyFalsy config.PWD = true ∧ ∃ rest, msg = "Password" ++ rest)) := by
  by_cases hb : pyFalsy config.BASE_URL = true
  · exact ⟨"Base URL is required in the configuration (e.g. https://demo123.imiscloud.com)",
      fun tokenResp => by simp [clientInit, hb],
      Or.inl ⟨hb, " is required in the configuration (e.g. https://demo123.imiscloud.com)", rfl⟩⟩
  · have hb' : pyFalsy config.BASE_URL = false := by simpa using hb
    by_cases hu : pyFalsy config.USERNAME = true
    · exact ⟨"Username is required in the configuration.",
        fun tokenResp => by simp [clientInit, hb', hu],
        Or.inr (Or.inl ⟨hu, " is required in the configuration.", rfl⟩)⟩
    · have hu' : pyFalsy config.USERNAME = false := by simpa using hu
      have hp : pyFalsy config.PWD = true := by
        rcases h with h | h | h
        · exact absurd h hb
        · exact absurd h hu
        · exact h
      exact ⟨"Password is required in the configuration.",
        fun tokenResp => by simp [clientInit, hb', hu', hp],
        Or.inr (Or.inr ⟨hp, " is required in the configuration.", rfl⟩)⟩

/-- Witness for C7 at a concrete configuration with an empty base URL. -/
theorem C7_config_validation_witness :
    ∃ msg : String,
      (∀ tokenResp,
        clientInit ⟨some "", some "u", some "p"⟩ tokenResp = .error (.valueError msg)) ∧
      ((pyFalsy (some "") = true ∧ ∃ rest, msg = "Base URL" ++ rest) ∨
       (pyFalsy (some "u") = true ∧ ∃ rest, msg = "Username" ++ rest) ∨
       (pyFalsy (some "p") = true ∧ ∃ rest, msg = "Password" ++ rest)) := by
  exact C7_config_validation ⟨some "", some "u", some "p"⟩ (Or.inl (by decide))

/-- Claim C8: a successful token response whose JSON body is
`{"access_token": t}` leaves the constructed client holding exactly
`"Bearer " ++ t`. -/
theorem C8_bearer_token (burl u p t : String)
    (hb : burl ≠ "") (hu : u ≠ "") (hp : p ≠ "") :
    clientInit ⟨some burl, some u, some p⟩
      (some (.json (.obj [("access_token", .str t)])))
      = .ok ⟨burl, "Bearer " ++ t⟩ := by
  have hreq : request_token (some (.json (.obj [("access_token", .str t)])))
      = .ok ("Bearer " ++ t) := rfl
  have hbt : ("Bearer " ++ t) ≠ "" := by
    intro hcontra
    have hlen := congrArg String.length hcontra
    simp [String.length_append] at hlen
    exact absurd hlen.1 (by decide)
  have hauth : authenticate u p (some (.json (.obj [("access_token", .str t)])))
      = .ok ("Bearer " ++ t) := by
    unfold authenticate
    rw [if_neg (by simp [hu, hp]), hreq]
    show (if ("Bearer " ++ t) = ""
        then (Except.error (PyExc.exn "Failed to authenticate with the API") : Except PyExc String)
        else pure ("Bearer " ++ t)) = .ok ("Bearer " ++ t)
    rw [if_neg hbt]
    rfl
  unfold clientInit
  rw [if_neg (by simp [pyFalsy, hb]), if_neg (by simp [pyFalsy, hu]),
    if_neg (by simp [pyFalsy, hp])]
  simp only [Option.getD_some]
  rw [hauth]
  rfl

/-- Witness for C8 at a concrete configuration and token value. -/
theorem C8_bearer_token_witness :
    clientInit ⟨some "https://demo123.imiscloud.com", some "u", some "p"⟩
      (some (.json (.obj [("access_token", .str "xyz")])))
      = .ok ⟨"https://demo123.imiscloud.com", "Bearer xyz"⟩ := by
  exact C8_bearer_token "https://demo123.imiscloud.com" "u" "p" "xyz"
    (by decide) (by decide) (by decide)

/-- Claim C3: `offset` starts at 0 (and the has-more flag at `True`); the
loop body runs only while the has-more flag is truthy and (`limit` is unset
or `offset < limit`); and a successfully decoded page advances `offset` by
exactly the number of records appended (not by `page_size`), replaces the
has-more flag by the page's `HasNext` value, and emits
`"Retrieving: {offset} of {total_count}"`. -/
theorem C3_loop_step (c : IMISClient) (server : Server) (path : String)
    (ps : Int) (lu : Option String) (limit : Option Int) (fuel : Nat)
    (st : LoopState) (b : Body) (r : ProcResult)
    (hcond : loopCond st.has_next st.offset limit = true)
    (hs : server st.calls (construct_path_request c.base_url path ps st.offset lu) = some b)
    (hp : process_response b = .ok (some r)) :
    initState.offset = 0 ∧
    initState.has_next = .bool true ∧
    (∀ hn o L, loopCond hn o (some L) = true ↔ (truthy hn = true ∧ (o : Int) < L)) ∧
    (∀ hn o, loopCond hn o none = truthy hn) ∧
    (∀ fuel' st', loopCond st'.has_next st'.offset limit = false →
      fetchAux c server path ps lu limit fuel' st' = .ok (some st')) ∧
    fetchAux c server path ps lu limit (fuel + 1) st
      = fetchAux c server path ps lu limit fuel (stepState st r) ∧
    (stepState st r).offset = st.offset + r.items.length ∧
    (stepState st r).has_next = r.has_next ∧
    (stepState st r).logs = st.logs ++
      ["Retrieving: " ++ toString (st.offset + r.items.length) ++ " of " ++ pyStr r.count] := by
  refine ⟨rfl, rfl, ?_, ?_, ?_, ?_, rfl, rfl, rfl⟩
  · intro hn o L
    simp [loopCond, limitOk]
  · intro hn o
    simp [loopCond, limitOk]
  · intro fuel' st' h
    exact fetchAux_cond_false c server path ps lu limit fuel' st' h
  · exact fetchAux_step c server path ps lu limit fuel st b r hcond hs hp

/-- Witness for C3 at a concrete state, server and page. -/
theorem C3_loop_step_witness :
    initState.offset = 0 ∧
    initState.has_next = .bool true ∧
    (∀ hn o L, loopCond hn o (some L) = true ↔ (truthy hn = true ∧ (o : Int) < L)) ∧
    (∀ hn o, loopCond hn o none = truthy hn) ∧
    (∀ fuel' st', loopCond st'.has_next st'.offset none = false →
      fetchAux ⟨"https://x", "Bearer t"⟩
        (scriptServer [some (pageBody [mkRow [("A", .str "x")]] false 1)])
        "/api/IQA?QueryName=$/Q" 200 none none fuel' st' = .ok (some st')) ∧
    fetchAux ⟨"https://x", "Bearer t"⟩
      (scriptServer [some (pageBody [mkRow [("A", .str "x")]] false 1)])
      "/api/IQA?QueryName=$/Q" 200 none none (3 + 1) initState
      = fetchAux ⟨"https://x", "Bearer t"⟩
        (scriptServer [some (pageBody [mkRow [("A", .str "x")]] false 1)])
        "/api/IQA?QueryName=$/Q" 200 none none 3
        (stepState initState ⟨[[(.str "A", .str "x")]], .bool false, .num 1⟩) ∧
    (stepState initState ⟨[[(.str "A", .str "x")]], .bool false, .num 1⟩).offset
      = initState.offset + [[((.str "A" : PyKey), (.str "x" : JVal))]].length ∧
    (stepState initState ⟨[[(.str "A", .str "x")]], .bool false, .num 1⟩).has_next
      = .bool false ∧
    (stepState initState ⟨[[(.str "A", .str "x")]], .bool false, .num 1⟩).logs
      = initState.logs ++
        ["Retrieving: " ++ toString (initState.offset
            + [[((.str "A" : PyKey), (.str "x" : JVal))]].length) ++ " of "
          ++ pyStr (.num 1)] := by
  exact C3_loop_step ⟨"https://x", "Bearer t"⟩
    (scriptServer [some (pageBody [mkRow [("A", .str "x")]] false 1)])
    "/api/IQA?QueryName=$/Q" 200 none none 3 initState
    (pageBody [mkRow [("A", .str "x")]] false 1)
    ⟨[[(.str "A", .str "x")]], .bool false, .num 1⟩ rfl rfl rfl

/-- Running the loop against a script of decodable pages (each reporting more
data) followed by one failing call: the loop consumes exactly the scripted
pages, stops at the failure, and ends with the concatenation of the scripted
records appended to the accumulator — with no exception. -/
theorem fetchAux_script (c : IMISClient) (server : Server) (path : String)
    (ps : Int) (lu : Option String) (limit : Option Int) :
    ∀ (gs : List (Body × ProcResult)) (st : LoopState) (fuel : Nat),
    gs.length < fuel →
    truthy st.has_next = true →
    (∀ p ∈ gs, process_response p.1 = .ok (some p.2)) →
    (∀ p ∈ gs, truthy p.2.has_next = true) →
    (∀ i (h : i < gs.length) url, server (st.calls + i) url = some (gs.get ⟨i, h⟩).1) →
    (∀ url, server (st.calls + gs.length) url = none ∨
      ∃ b, server (st.calls + gs.length) url = some b ∧ process_response b = .ok none) →
    (∀ i, i ≤ gs.length → limitOk limit (st.offset + sumLens (gs.take i)) = true) →
    ∃ st', fetchAux c server path ps lu limit fuel st = .ok (some st') ∧
      st'.items = st.items ++ (gs.map (fun p => p.2.items)).flatten := by
  intro gs
  induction gs with
  | nil =>
    intro st fuel hfuel hhn _ _ _ hfail hlim
    obtain ⟨f, rfl⟩ : ∃ f, fuel = f + 1 := ⟨fuel - 1, by omega⟩
    have hl0 := hlim 0 (by omega)
    simp [sumLens] at hl0
    have hc : loopCond st.has_next st.offset limit = true := by
      simp [loopCond, hhn, hl0]
    rcases hfail (construct_path_request c.base_url path ps st.offset lu) with hnone | ⟨b, hb, hpn⟩
    · simp only [List.length_nil, Nat.add_zero] at hnone
      exact ⟨{ st with calls := st.calls + 1 },
        fetchAux_httpFail c server path ps lu limit f st hc hnone, by simp⟩
    · simp only [List.length_nil, Nat.add_zero] at hb
      exact ⟨{ st with calls := st.calls + 1 },
        fetchAux_decodeFail c server path ps lu limit f st b hc hb hpn, by simp⟩
  | cons g gs' ih =>
    intro st fuel hfuel hhn hdec hnext hserv hfail hlim
    obtain ⟨f, rfl⟩ : ∃ f, fuel = f + 1 := ⟨fuel - 1, by omega⟩
    have hl0 := hlim 0 (by omega)
    simp [sumLens] at hl0
    have hc : loopCond st.has_next st.offset limit = true := by
      simp [loopCond, hhn, hl0]
    have hs0 : server st.calls (construct_path_request c.base_url path ps st.offset lu)
        = some g.1 := by
      have := hserv 0 (by simp) (construct_path_request c.base_url path ps st.offset lu)
      simpa using this
    have hp0 : process_response g.1 = .ok (some g.2) := hdec g (by simp)
    have hstep := fetchAux_step c server path ps lu limit f st g.1 g.2 hc hs0 hp0
    obtain ⟨st', hrun, hitems⟩ := ih (stepState st g.2) f
      (by simp at hfuel; omega)
      (by simp [stepState]; exact hnext g (by simp))
      (fun p hp => hdec p (by simp [hp]))
      (fun p hp => hnext p (by simp [hp]))
      (by
        intro i h url
        have := hserv (i + 1) (by simp; omega) url
        have harg : st.calls + (i + 1) = (stepState st g.2).calls + i := by
          simp [stepState]; omega
        rw [harg] at this
        simpa using this)
      (by
        intro url
        have harg : st.calls + (g :: gs').length = (stepState st g.2).calls + gs'.length := by
          simp [stepState]; omega
        rw [harg] at hfail
        exact hfail url)
      (by
        intro i hi
        have := hlim (i + 1) (by simp; omega)
        have harg : st.offset + sumLens ((g :: gs').take (i + 1))
            = (stepState st g.2).offset + sumLens (gs'.take i) := by
          simp [stepState, sumLens, List.take_succ_cons]
          omega
        rw [harg] at this
        exact this)
    refine ⟨st', by rw [hstep]; exact hrun, ?_⟩
    rw [hitems]
    simp [stepState]

/-- Claim C2, amended: for every response sequence consisting of decodable
pages (each reporting more data and passing the limit check) followed by one
failing call — transport failure, or a body failing to decode with malformed
JSON or a missing key — `fetch_iqa` stops at the failure and returns exactly
the records accumulated from the prior successful pages, with no exception.
(As originally stated the claim is refuted by `C2_cex_exception_escapes`: a
body that cannot be decoded but raises `TypeError`/`AttributeError` instead
of the caught `JSONDecodeError`/`KeyError` propagates out of `fetch_iqa`.) -/
theorem C2_partial_results (c : IMISClient) (server : Server) (iqa_path : String)
    (limit : Option Int) (ps : Int) (lu : Option String) (fuel : Nat)
    (gs : List (Body × ProcResult))
    (hfuel : gs.length < fuel)
    (hdec : ∀ p ∈ gs, process_response p.1 = .ok (some p.2))
    (hnext : ∀ p ∈ gs, truthy p.2.has_next = true)
    (hserv : ∀ i (h : i < gs.length) url, server i url = some (gs.get ⟨i, h⟩).1)
    (hfail : ∀ url, server gs.length url = none ∨
      ∃ b, server gs.length url = some b ∧ process_response b = .ok none)
    (hlim : ∀ i, i ≤ gs.length → limitOk limit (sumLens (gs.take i)) = true) :
    ∃ st', fetch_run c server iqa_path limit ps lu fuel = .ok (some st') ∧
      st'.items = (gs.map (fun p => p.2.items)).flatten := by
  obtain ⟨st', h1, h2⟩ := fetchAux_script c server ("/api/IQA?QueryName=" ++ iqa_path)
    ps lu limit gs initState fuel hfuel rfl hdec hnext
    (by intro i h url; simpa [initState] using hserv i h url)
    (by intro url; simpa [initState] using hfail url)
    (by intro i hi; simpa [initState] using hlim i hi)
  exact ⟨st', h1, by simpa [initState] using h2⟩

/-- Witness for C2 at a concrete script: one good page then a transport
failure. -/
theorem C2_partial_results_witness :
    ∃ st', fetch_run ⟨"https://x", "Bearer t"⟩
        (scriptServer [some (pageBody [mkRow [("A", .str "x")]] true 2)])
        "$/Samples/Q" none 200 none 5 = .ok (some st') ∧
      st'.items = ([(pageBody [mkRow [("A", .str "x")]] true 2,
          (⟨[[(.str "A", .str "x")]], .bool true, .num 2⟩ : ProcResult))].map
        (fun p => p.2.items)).flatten := by
  apply C2_partial_results ⟨"https://x", "Bearer t"⟩
    (scriptServer [some (pageBody [mkRow [("A", .str "x")]] true 2)])
    "$/Samples/Q" none 200 none 5
    [(pageBody [mkRow [("A", .str "x")]] true 2,
      ⟨[[(.str "A", .str "x")]], .bool true, .num 2⟩)]
  · decide
  · intro p hp
    rw [List.mem_singleton] at hp
    subst hp
    rfl
  · intro p hp
    rw [List.mem_singleton] at hp
    subst hp
    rfl
  · intro i h url
    have hi : i = 0 := by simp at h; omega
    subst hi
    rfl
  · intro url
    exact Or.inl rfl
  · intro i hi
    rfl

/-- Loop invariant behind the limit-overshoot bound: starting from a state
whose accumulator length equals its offset and whose offset is below
`L + ps`, a normal exit preserves both facts, because a page is only fetched
while `offset < L` and contributes at most `ps` records. -/
theorem fetchAux_bound (c : IMISClient) (server : Server) (path : String)
    (ps : Int) (lu : Option String) (L : Int)
    (hb : pagesBounded server ps) :
    ∀ (fuel : Nat) (st st' : LoopState),
    st.items.length = st.offset → (st.offset : Int) < L + ps →
    fetchAux c server path ps lu (some L) fuel st = .ok (some st') →
    st'.items.length = st'.offset ∧ (st'.offset : Int) < L + ps := by
  intro fuel
  induction fuel with
  | zero =>
    intro st st' hinv hlt hrun
    by_cases hc : loopCond st.has_next st.offset (some L) = true
    · simp [fetchAux, hc] at hrun
    · rw [fetchAux_cond_false c server path ps lu (some L) 0 st
        (by simpa using hc)] at hrun
      simp at hrun
      subst hrun
      exact ⟨hinv, hlt⟩
  | succ f ih =>
    intro st st' hinv hlt hrun
    by_cases hc : loopCond st.has_next st.offset (some L) = true
    · have hoff : (st.offset : Int) < L := by
        simp [loopCond, limitOk] at hc
        exact hc.2
      cases hs : server st.calls (construct_path_request c.base_url path ps st.offset lu) with
      | none =>
        rw [fetchAux_httpFail c server path ps lu (some L) f st hc hs] at hrun
        simp at hrun
        subst hrun
        exact ⟨hinv, hlt⟩
      | some b =>
        cases hp : process_response b with
        | error e =>
          rw [fetchAux_exc c server path ps lu (some L) f st b e hc hs hp] at hrun
          simp at hrun
        | ok o =>
          cases o with
          | none =>
            rw [fetchAux_decodeFail c server path ps lu (some L) f st b hc hs hp] at hrun
            simp at hrun
            subst hrun
            exact ⟨hinv, hlt⟩
          | some r =>
            rw [fetchAux_step c server path ps lu (some L) f st b r hc hs hp] at hrun
            have hlen : (r.items.length : Int) ≤ ps := hb st.calls _ b r hs hp
            apply ih (stepState st r) st' ?_ ?_ hrun
            · simp [stepState, hinv]
            · simp only [stepState]
              push_cast
              omega
    · rw [fetchAux_cond_false c server path ps lu (some L) (f + 1) st
        (by simpa using hc)] at hrun
      simp at hrun
      subst hrun
      exact ⟨hinv, hlt⟩

/-- Claim C6: a set `limit` bounds the cumulative `offset`, not the exact
result length — a page is fetched only while `offset < limit`, so when every
decoded page contributes at most `page_size` records any normal exit returns
fewer than `limit + page_size` records. -/
theorem C6_limit_bound (c : IMISClient) (server : Server) (iqa_path : String)
    (ps : Int) (lu : Option String) (L : Int) (fuel : Nat) (st' : LoopState)
    (hL : 0 ≤ L) (hps : 1 ≤ ps) (hb : pagesBounded server ps)
    (hrun : fetch_run c server iqa_path (some L) ps lu fuel = .ok (some st')) :
    (st'.items.length : Int) < L + ps ∧
    (∀ hn o, loopCond hn o (some L) = true → (o : Int) < L) := by
  have h := fetchAux_bound c server ("/api/IQA?QueryName=" ++ iqa_path) ps lu L hb
    fuel initState st' rfl (by simp [initState]; omega) hrun
  constructor
  · rw [h.1]
    exact h.2
  · intro hn o hc
    simp [loopCond, limitOk] at hc
    exact hc.2

/-- Witness for C6: a server that fails at once, limit 5, page size 200. -/
theorem C6_limit_bound_witness :
    ((((⟨[], .bool true, 0, [], 1⟩ : LoopState)).items.length : Int) < 5 + 200 ∧
     (∀ hn o, loopCond hn o (some 5) = true → (o : Int) < 5)) := by
  exact C6_limit_bound ⟨"https://x", "Bearer t"⟩ (fun _ _ => none) "$/Samples/Q"
    200 none 5 3 ⟨[], .bool true, 0, [], 1⟩ (by omega) (by omega)
    (fun i url b r h hp => Option.noConfusion h) rfl

/-- Termination with a set limit: if every served page either reports no
further data or contains at least one record, the offset strictly increases
on every continuing iteration, so `L` (plus one iteration) bounds the fuel
the loop can consume: it cannot still be running after that. -/
theorem fetchAux_term (c : IMISClient) (server : Server) (path : String)
    (ps : Int) (lu : Option String) (L : Int)
    (hg : goodPages server) :
    ∀ (fuel : Nat) (st : LoopState), L < (st.offset : Int) + fuel →
    fetchAux c server path ps lu (some L) fuel st ≠ .ok none := by
  intro fuel
  induction fuel with
  | zero =>
    intro st hlt
    by_cases hc : loopCond st.has_next st.offset (some L) = true
    · have hoff : (st.offset : Int) < L := by
        simp [loopCond, limitOk] at hc
        exact hc.2
      omega
    · rw [fetchAux_cond_false c server path ps lu (some L) 0 st (by simpa using hc)]
      simp
  | succ f ih =>
    intro st hlt
    by_cases hc : loopCond st.has_next st.offset (some L) = true
    · cases hs : server st.calls (construct_path_request c.base_url path ps st.offset lu) with
      | none =>
        rw [fetchAux_httpFail c server path ps lu (some L) f st hc hs]
        simp
      | some b =>
        cases hp : process_response b with
        | error e =>
          rw [fetchAux_exc c server path ps lu (some L) f st b e hc hs hp]
          simp
        | ok o =>
          cases o with
          | none =>
            rw [fetchAux_decodeFail c server path ps lu (some L) f st b hc hs hp]
            simp
          | some r =>
            rw [fetchAux_step c server path ps lu (some L) f st b r hc hs hp]
            rcases hg st.calls _ b r hs hp with hfalse | hne
            · rw [fetchAux_cond_false c server path ps lu (some L) f (stepState st r)
                (by simp [stepState, loopCond, hfalse])]
              simp
            · apply ih (stepState st r)
              have hpos : 0 < r.items.length := List.length_pos.mpr hne
              simp only [stepState]
              push_cast
              omega
    · rw [fetchAux_cond_false c server path ps lu (some L) (f + 1) st (by simpa using hc)]
      simp

/-- Divergence on zero-record pages: a server that always answers with a
decodable page holding no records and `HasNext = true` leaves the loop state
unchanged (except for the trace), so the loop is still running whatever the
fuel. -/
theorem fetchAux_div (c : IMISClient) (path : String) (ps : Int) (lu : Option String) :
    ∀ (fuel : Nat) (logs : List String) (calls : Nat),
    fetchAux c emptyPageServer path ps lu none fuel ⟨[], .bool true, 0, logs, calls⟩
      = .ok none := by
  intro fuel
  induction fuel with
  | zero => intro logs calls; rfl
  | succ f ih =>
    intro logs calls
    have hstep := fetchAux_step c emptyPageServer path ps lu none f
      ⟨[], .bool true, 0, logs, calls⟩ emptyPageBody ⟨[], .bool true, .num 0⟩ rfl rfl rfl
    rw [hstep]
    exact ih _ _

/-- Claim C10: with a set limit, `fetch_iqa` terminates whenever every
successfully decoded page has a falsy `HasNext` or at least one record
(offset strictly increases, so the limit is reached within `limit + 1`
iterations); conversely a decoded page with zero records and
`HasNext = true` leaves `offset` unchanged — so the next request URL is
identical — and against a server always answering such pages the loop never
terminates on its own. -/
theorem C10_termination (c : IMISClient) (server : Server) (iqa_path path : String)
    (ps : Int) (lu : Option String) (L : Int)
    (hg : goodPages server) :
    fetch_run c server iqa_path (some L) ps lu (L.toNat + 1) ≠ .ok none ∧
    (∀ fuel, fetch_run c emptyPageServer iqa_path none ps lu fuel = .ok none) ∧
    (∀ st r, r.items = [] →
      (stepState st r).offset = st.offset ∧
      construct_path_request c.base_url path ps (stepState st r).offset lu
        = construct_path_request c.base_url path ps st.offset lu) := by
  refine ⟨?_, ?_, ?_⟩
  · apply fetchAux_term c server ("/api/IQA?QueryName=" ++ iqa_path) ps lu L hg
      (L.toNat + 1) initState
    have := Int.self_le_toNat L
    simp [initState]
    omega
  · intro fuel
    exact fetchAux_div c ("/api/IQA?QueryName=" ++ iqa_path) ps lu fuel [] 0
  · intro st r h
    have hoff : (stepState st r).offset = st.offset := by
      simp [stepState, h]
    exact ⟨hoff, by rw [hoff]⟩

/-- Witness for C10: a server failing at once satisfies the page condition
vacuously; limit 5 terminates within 6 iterations. -/
theorem C10_termination_witness :
    fetch_run ⟨"https://x", "Bearer t"⟩ (fun _ _ => none) "$/Samples/Q"
      (some 5) 200 none ((5 : Int).toNat + 1) ≠ .ok none ∧
    (∀ fuel, fetch_run ⟨"https://x", "Bearer t"⟩ emptyPageServer "$/Samples/Q"
      none 200 none fuel = .ok none) ∧
    (∀ st r, r.items = [] →
      (stepState st r).offset = st.offset ∧
      construct_path_request "https://x" "/p" 200 (stepState st r).offset none
        = construct_path_request "https://x" "/p" 200 st.offset none) := by
  exact C10_termination ⟨"https://x", "Bearer t"⟩ (fun _ _ => none) "$/Samples/Q" "/p"
    200 none 5 (fun i url b r h hp => Option.noConfusion h)
